import Mathlib

/-!
Verification of the crawl scheduler / retry engine of the article-monitor
repository (`monitor/crawler.py`, with constants from `monitor/config.py`).

Conventions of the shallow embedding:
* Python strings are `List Char`; `str.lower()` is `List.map Char.toLower`
  (the keyword tables are ASCII, where the two coincide).
* The fetch primitive `extract_article_info` is an oracle
  `Nat → FetchOutcome` giving the outcome of each physical fetch attempt.
* Side effects (fetches, status updates, title updates, persisted read
  counts, per-domain throttle operations) are recorded in an effect log;
  wall-clock sleeping itself is unobservable and is not modelled.
* The cooperative stop flag is modelled deterministically: a batch run
  takes an optional index before which the flag becomes set; a worker takes
  the flag's value at its entry check.
* Python floats (delays, backoff factors) are modelled as rationals.
-/

namespace Monitor

/-- True when the first list is an initial segment of the second
(model of Python `str.startswith`, used to decide substring containment). -/
def leadsWith : List Char → List Char → Bool
  | [], _ => true
  | _ :: _, [] => false
  | a :: as, b :: bs => a == b && leadsWith as bs

/-- True when `kw` occurs as a contiguous substring of `s`
(model of Python's `kw in s` on strings). -/
def hasKeyword (kw : List Char) : List Char → Bool
  | [] => kw.isEmpty
  | c :: rest => leadsWith kw (c :: rest) || hasKeyword kw rest

/-- `any(keyword in error_str for keyword in keywords)` from
`_get_error_category`. -/
def containsAnyKeyword (errStr : List Char) (kws : List (List Char)) : Bool :=
  kws.any fun kw => hasKeyword kw errStr

/-- `ErrorCategory` enum from `crawler.py`. -/
inductive ErrorCategory where
  | network
  | parse
  | ssl
  | permanent
  | unknown
deriving DecidableEq

/-- `permanent_keywords` from `_get_error_category`. -/
def permanentKeywords : List (List Char) :=
  ["404", "not found", "403", "forbidden", "401", "unauthorized"].map String.toList

/-- `ssl_keywords` from `_get_error_category`. -/
def sslKeywords : List (List Char) :=
  ["ssl", "certificate", "handshake", "tls", "cert"].map String.toList

/-- `network_keywords` from `_get_error_category`. -/
def networkKeywords : List (List Char) :=
  ["timeout", "connection", "network", "temporary",
   "503", "502", "504", "429",
   "econnrefused", "econnreset", "etimedout",
   "connection refused", "connection reset", "connection aborted",
   "name resolution", "dns", "no route to host"].map String.toList

/-- `parse_keywords` from `_get_error_category`. -/
def parseKeywords : List (List Char) :=
  ["extract", "parse", "selector", "element not found", "no such element"].map String.toList

/-- `_get_error_category(error)`: lower-case the error's string
representation and match keyword tables in fixed priority order
(permanent, ssl, network, parse, otherwise unknown). -/
def getErrorCategory (err : List Char) : ErrorCategory :=
  let errStr := err.map Char.toLower
  if containsAnyKeyword errStr permanentKeywords then .permanent
  else if containsAnyKeyword errStr sslKeywords then .ssl
  else if containsAnyKeyword errStr networkKeywords then .network
  else if containsAnyKeyword errStr parseKeywords then .parse
  else .unknown

/-- `_is_retryable_error(error)`: every category except permanent retries. -/
def isRetryableError (err : List Char) : Bool :=
  decide (getErrorCategory err ≠ ErrorCategory.permanent)

/-- Crawl-related configuration from `config.py`.  The last three fields
(`concurrencyPerDomain`, `minDelayPerDomain`, `interleaveBySite`) are
imported by `crawler.py` as `CRAWL_CONCURRENCY_PER_DOMAIN`,
`CRAWL_MIN_DELAY_PER_DOMAIN` and `CRAWL_INTERLEAVE_BY_SITE` but are absent
from the `config.py` in this snapshot; they are modelled from the spec
(per-domain cap, 0 meaning disabled; minimum per-domain spacing, 0 meaning
disabled; round-robin interleaving toggle). -/
structure Config where
  maxRetries : Nat
  retryDelay : ℚ
  retryBackoff : ℚ
  retryMaxDelay : ℚ
  retryJitter : Bool
  retryNetworkMax : Nat
  retryParseMax : Nat
  retrySslMax : Nat
  retrySslDelay : ℚ
  concurrencyPerDomain : Nat
  minDelayPerDomain : ℚ
  interleaveBySite : Bool
  allowedPlatforms : List (List Char)
deriving DecidableEq

/-- `ALLOWED_PLATFORMS` default whitelist from `config.py`. -/
def defaultAllowedPlatforms : List (List Char) :=
  ["juejin", "csdn", "cnblog", "51cto", "segmentfault",
   "jinshu", "MBB", "elecfans", "sohu"].map String.toList

/-- The environment-variable defaults of `config.py` (floats as rationals).
For the three constants missing from `config.py` the values follow the
spec's description (per-domain limiting and interleaving enabled). -/
def defaultConfig : Config where
  maxRetries := 10
  retryDelay := 2
  retryBackoff := 3 / 2
  retryMaxDelay := 30
  retryJitter := true
  retryNetworkMax := 10
  retryParseMax := 3
  retrySslMax := 5
  retrySslDelay := 5
  concurrencyPerDomain := 2
  minDelayPerDomain := 1
  interleaveBySite := true
  allowedPlatforms := defaultAllowedPlatforms

/-- `_get_max_retries_for_category(error_category)`. -/
def getMaxRetriesForCategory (cfg : Config) : ErrorCategory → Nat
  | .network => cfg.retryNetworkMax
  | .unknown => cfg.retryNetworkMax
  | .parse => cfg.retryParseMax
  | .ssl => cfg.retrySslMax
  | .permanent => 0

/-- Pre-jitter part of `_calculate_retry_delay(error_category, attempt)`:
fixed delay for ssl, linear backoff for parse, exponential backoff for
network/unknown, all capped at `CRAWL_RETRY_MAX_DELAY`. -/
def calculateRetryDelayPre (cfg : Config) (cat : ErrorCategory) (attempt : Nat) : ℚ :=
  let baseDelay : ℚ :=
    match cat with
    | .ssl => cfg.retrySslDelay
    | .parse => cfg.retryDelay * attempt
    | _ => cfg.retryDelay * cfg.retryBackoff ^ (attempt - 1)
  min baseDelay cfg.retryMaxDelay

/-- Full `_calculate_retry_delay`, with the jitter branch.  `jitterSample`
stands for the value drawn by `random.uniform(-0.1*delay, 0.1*delay)`; it
is consulted only when `CRAWL_RETRY_JITTER` is enabled. -/
def calculateRetryDelay (cfg : Config) (cat : ErrorCategory) (attempt : Nat)
    (jitterSample : ℚ) : ℚ :=
  let delay := calculateRetryDelayPre cfg cat attempt
  if cfg.retryJitter then max (1 / 10) (delay + jitterSample) else delay

/-- `is_platform_allowed(site)` from `config.py`: an empty whitelist allows
everything; a falsy site (None or empty) is rejected; otherwise membership.
`none` models Python `None`, `some []` an empty string. -/
def isPlatformAllowed (cfg : Config) (site : Option (List Char)) : Bool :=
  if cfg.allowedPlatforms.isEmpty then true
  else
    match site with
    | none => false
    | some s => if s.isEmpty then false else cfg.allowedPlatforms.contains s

/-- `ArticleTarget` snapshot: the fields of the article dict that the
crawl worker reads (`id`, `url`, `site`, `title`, preloaded
`_latest_count`, and the `last_error` key read by `_get_retry_priority`,
which no code path ever writes). -/
structure Article where
  id : Nat
  url : List Char
  site : Option (List Char)
  title : List Char
  latestCount : Option Int
  lastError : List Char
deriving DecidableEq

/-- Result of one physical call of `extract_article_info`: either an
exception carrying its message, or a dict with optional `read_count` and
optional `title`. -/
inductive FetchOutcome where
  | raise (msg : List Char)
  | ok (readCount : Option Int) (title : Option (List Char))
deriving DecidableEq

/-- Observable side effects of the scheduler, in program order. -/
inductive Effect where
  | fetch (articleId : Nat)
  | statusUpdate (articleId : Nat) (status : List Char) (errMsg : Option (List Char))
  | titleUpdate (articleId : Nat) (title : List Char)
  | addReadCount (articleId : Nat) (count : Int)
  | rateWait (domain : List Char)
  | acquireSlot (domain : List Char)
deriving DecidableEq

/-- The `'OK'` status string. -/
def statusOK : List Char := "OK".toList

/-- The `'ERROR'` status string. -/
def statusERROR : List Char := "ERROR".toList

/-- Message of the synthetic parse error `Exception('无法提取阅读数')`. -/
def noCountMsg : List Char := "无法提取阅读数".toList

/-- Message of the pass-2 terminal status `'集中重试后仍然失败'`. -/
def retryFailedMsg : List Char := "集中重试后仍然失败".toList

/-- Fallback final error message `'未知错误'`. -/
def unknownErrorMsg : List Char := "未知错误".toList

/-- Outcome of one worker invocation: the returned boolean, the effect
log, and the number of `_crawl_progress['retried']` increments. -/
structure CrawlResult where
  success : Bool
  log : List Effect
  retriedInc : Nat
deriving DecidableEq

/-- A worker invocation that produced no effects and returned False. -/
def emptyResult : CrawlResult := { success := false, log := [], retriedInc := 0 }

/-- Title-refresh side effect of `_crawl_with_retry`: update when a truthy
extracted title differs from the article's current title. -/
def titleUpdateLog (article : Article) : Option (List Char) → List Effect
  | none => []
  | some t => if ¬t.isEmpty ∧ t ≠ article.title then [.titleUpdate article.id t] else []

/-- Loop body of `_crawl_with_retry`, one constructor-recursive step per
iteration of `for attempt in range(max_retries + 1)`.  `fuel` is the number
of loop iterations still available (initially `max_retries + 1`), `attempt`
the current 0-based iteration index, `lastError`/`lastErrorCat` the state
threaded between iterations.  `fetch` gives the outcome of each attempt;
`dbLatest` models the `get_latest_read_count` fallback query.  Retry sleeps
and the stop-flag re-checks around them are not observable here (the flag
is constant within one invocation in this model). -/
def crawlGo (cfg : Config) (article : Article) (fetch : Nat → FetchOutcome)
    (dbLatest : Nat → Option Int) (maxRetries : Nat) (markErrorOnFail : Bool) :
    Nat → Nat → Option (List Char) → Option ErrorCategory → CrawlResult
  | 0, _, lastError, _ =>
      let finalError := lastError.getD unknownErrorMsg
      { success := false
        log := if markErrorOnFail then [.statusUpdate article.id statusERROR (some finalError)] else []
        retriedInc := 0 }
  | fuel + 1, attempt, _lastError, lastErrorCat =>
      let retriedHere : Nat := if 0 < attempt ∧ lastErrorCat.isSome then 1 else 0
      match fetch attempt with
      | .raise e =>
          let cat := getErrorCategory e
          if cat = .permanent then
            { success := false
              log := [.fetch article.id] ++
                (if markErrorOnFail then [.statusUpdate article.id statusERROR (some (e.take 100))] else [])
              retriedInc := retriedHere }
          else
            let categoryMaxRetries := getMaxRetriesForCategory cfg cat
            let effectiveMaxRetries := min maxRetries categoryMaxRetries
            if isRetryableError e ∧ attempt ≤ effectiveMaxRetries then
              let r := crawlGo cfg article fetch dbLatest maxRetries markErrorOnFail
                fuel (attempt + 1) (some e) (some cat)
              { success := r.success
                log := [.fetch article.id] ++ r.log
                retriedInc := retriedHere + r.retriedInc }
            else
              { success := false
                log := [.fetch article.id] ++
                  (if markErrorOnFail ∧ (¬isRetryableError e ∨ effectiveMaxRetries ≤ attempt) then
                    [.statusUpdate article.id statusERROR (some e)]
                  else [])
                retriedInc := retriedHere }
      | .ok readCount newTitle =>
          let tLog := titleUpdateLog article newTitle
          match readCount with
          | none =>
              let effectiveMaxRetries := min maxRetries (getMaxRetriesForCategory cfg .parse)
              if attempt ≤ effectiveMaxRetries then
                let r := crawlGo cfg article fetch dbLatest maxRetries markErrorOnFail
                  fuel (attempt + 1) (some noCountMsg) (some .parse)
                { success := r.success
                  log := [.fetch article.id] ++ tLog ++ r.log
                  retriedInc := retriedHere + r.retriedInc }
              else
                { success := false
                  log := [.fetch article.id] ++ tLog ++
                    (if markErrorOnFail then [.statusUpdate article.id statusERROR (some noCountMsg)] else [])
                  retriedInc := retriedHere }
          | some count =>
              let latestCount : Option Int :=
                match article.latestCount with
                | some v => some v
                | none => dbLatest article.id
              if latestCount = some count then
                { success := true
                  log := [.fetch article.id] ++ tLog ++ [.statusUpdate article.id statusOK none]
                  retriedInc := retriedHere }
              else
                { success := true
                  log := [.fetch article.id] ++ tLog ++
                    [.addReadCount article.id count, .statusUpdate article.id statusOK none]
                  retriedInc := retriedHere }

/-- `_crawl_with_retry(article, crawler, max_retries, mark_error_on_fail)`. -/
def crawlWithRetry (cfg : Config) (article : Article) (fetch : Nat → FetchOutcome)
    (dbLatest : Nat → Option Int) (maxRetries : Nat) (markErrorOnFail : Bool) : CrawlResult :=
  crawlGo cfg article fetch dbLatest maxRetries markErrorOnFail (maxRetries + 1) 0 none none

/-- `crawl_article_with_retry(article, ..., max_retries, skip_retry)` with
the stop flag sampled at its checks (the semaphore-guarded re-check sees
the same constant value in this model). -/
def crawlArticleWithRetry (cfg : Config) (article : Article) (fetch : Nat → FetchOutcome)
    (dbLatest : Nat → Option Int) (maxRetries : Nat) (skipRetry stop : Bool) : CrawlResult :=
  if !(isPlatformAllowed cfg article.site) then emptyResult
  else if stop then emptyResult
  else crawlWithRetry cfg article fetch dbLatest
    (if skipRetry then 0 else maxRetries) (!skipRetry)

/-- Number of physical fetch attempts recorded in a log. -/
def fetchCount : List Effect → Nat
  | [] => 0
  | .fetch _ :: rest => fetchCount rest + 1
  | _ :: rest => fetchCount rest

/-- Number of `_wait_domain_rate_limit` spacing waits recorded in a log. -/
def rateWaitCount : List Effect → Nat
  | [] => 0
  | .rateWait _ :: rest => rateWaitCount rest + 1
  | _ :: rest => rateWaitCount rest

/-- Number of per-domain concurrency-slot acquisitions recorded in a log. -/
def slotCount : List Effect → Nat
  | [] => 0
  | .acquireSlot _ :: rest => slotCount rest + 1
  | _ :: rest => slotCount rest

/-- Number of persisted read counts (`add_read_count` calls) in a log. -/
def readAddCount : List Effect → Nat
  | [] => 0
  | .addReadCount _ _ :: rest => readAddCount rest + 1
  | _ :: rest => readAddCount rest

/-- The status updates (`update_article_status` calls) of a log, in order. -/
def statusUpdatesOf : List Effect → List Effect
  | [] => []
  | .statusUpdate i s m :: rest => .statusUpdate i s m :: statusUpdatesOf rest
  | _ :: rest => statusUpdatesOf rest

/-- Drop characters up to and including the first `"//"`, as
`urllib.parse.urlparse` does to locate the authority of a URL of the
common `scheme://host/path` shape; `none` when no `"//"` occurs. -/
def dropThroughSlashSlash : List Char → Option (List Char)
  | [] => none
  | '/' :: '/' :: rest => some rest
  | _ :: rest => dropThroughSlashSlash rest

/-- Authority (netloc) of a URL: what follows `"//"` up to the next
delimiter.  Models `urlparse(url).netloc` for well-formed http(s) URLs. -/
def netlocOf (url : List Char) : List Char :=
  match dropThroughSlashSlash url with
  | none => []
  | some rest => rest.takeWhile fun c => c != '/' && c != '?' && c != '#'

/-- `_domain_from_article(article)`: lower-cased netloc, `'unknown'` when
empty. -/
def domainFromArticle (article : Article) : List Char :=
  let d := (netlocOf article.url).map Char.toLower
  if d.isEmpty then "unknown".toList else d

/-- Append an article to its domain group, creating the group at the end
on first occurrence — the insertion behaviour of the
`defaultdict(list)` keyed in first-appearance order in
`_interleave_articles_by_site`. -/
def addToGroups : List (List Char × List Article) → List Char → Article →
    List (List Char × List Article)
  | [], k, a => [(k, [a])]
  | (k', l) :: rest, k, a =>
      if k' = k then (k', l ++ [a]) :: rest else (k', l) :: addToGroups rest k a

/-- The `groups` dict of `_interleave_articles_by_site`: domain groups in
first-appearance order, each group in input order. -/
def groupBySite (arts : List Article) : List (List Char × List Article) :=
  arts.foldl (fun gs a => addToGroups gs (domainFromArticle a) a) []

/-- Total number of articles left in the groups. -/
def sumLen : List (List Article) → Nat
  | [] => 0
  | l :: gs => l.length + sumLen gs

/-- One round-robin sweep: the first element of each non-empty group, in
group order (`groups[k].pop(0)` for one cycle of `idx` over `keys`). -/
def headsOf : List (List Article) → List Article
  | [] => []
  | [] :: gs => headsOf gs
  | (a :: _) :: gs => a :: headsOf gs

/-- The groups after one sweep has removed each group's head. -/
def tailsOf (gs : List (List Article)) : List (List Article) :=
  gs.map List.tail

/-- The `while any(groups[k] for k in keys)` loop of
`_interleave_articles_by_site`, one recursive step per full cycle of `idx`
over `keys`; `fuel` bounds the number of sweeps (each sweep on a non-empty
state removes at least one article, so `sumLen` sweeps always suffice). -/
def roundRobinGo : Nat → List (List Article) → List Article
  | 0, _ => []
  | fuel + 1, gs =>
      if sumLen gs = 0 then [] else headsOf gs ++ roundRobinGo fuel (tailsOf gs)

/-- Round-robin interleaving of the domain groups. -/
def roundRobin (gs : List (List Article)) : List Article :=
  roundRobinGo (sumLen gs) gs

/-- `_interleave_articles_by_site(articles)`. -/
def interleaveArticlesBySite (arts : List Article) : List Article :=
  if arts.isEmpty then arts
  else roundRobin ((groupBySite arts).map Prod.snd)

/-- Effect of `_wait_domain_rate_limit(domain)`: a spacing wait is
performed exactly when `CRAWL_MIN_DELAY_PER_DOMAIN` is positive (the
length of the suspension is wall-clock behaviour, not modelled). -/
def rateLimitLog (cfg : Config) (domain : List Char) : List Effect :=
  if 0 < cfg.minDelayPerDomain then [.rateWait domain] else []

/-- Effect of taking the `_get_domain_semaphore(domain)` slot: acquired
exactly when `CRAWL_CONCURRENCY_PER_DOMAIN` is positive, and held for the
whole guarded block. -/
def domainSlotLog (cfg : Config) (domain : List Char) : List Effect :=
  if 0 < cfg.concurrencyPerDomain then [.acquireSlot domain] else []

/-- Pass-1 task `crawl_with_progress(article, index)`: entry stop check
(a stopped task contributes nothing at all), then the spacing wait, then
the domain slot around `crawl_article_with_retry(..., skip_retry=True)`. -/
def crawlWithProgress (cfg : Config) (article : Article) (fetch : Nat → FetchOutcome)
    (dbLatest : Nat → Option Int) (stop : Bool) : Option CrawlResult :=
  if stop then none
  else
    let domain := domainFromArticle article
    let r := crawlArticleWithRetry cfg article fetch dbLatest cfg.maxRetries true false
    some { r with log := rateLimitLog cfg domain ++ domainSlotLog cfg domain ++ r.log }

/-- Pass-2 task `retry_with_pool(article, index)` together with
`_do_retry_with_pool`: stop check, domain slot, spacing wait, then
`_crawl_with_retry(article, crawler, CRAWL_MAX_RETRIES,
mark_error_on_fail=True)`; on failure one more terminal ERROR status and
in every completed case a `retried` progress increment. -/
def retryWithPool (cfg : Config) (article : Article) (fetch : Nat → FetchOutcome)
    (dbLatest : Nat → Option Int) (stop : Bool) : CrawlResult :=
  if stop then emptyResult
  else
    let domain := domainFromArticle article
    let r := crawlWithRetry cfg article fetch dbLatest cfg.maxRetries true
    let failLog : List Effect :=
      if r.success then [] else [.statusUpdate article.id statusERROR (some retryFailedMsg)]
    { success := r.success
      log := domainSlotLog cfg domain ++ rateLimitLog cfg domain ++ r.log ++ failLog
      retriedInc := r.retriedInc + 1 }

/-- `RETRY_PRIORITY_MAP` (lower = retried earlier in pass 2). -/
def retryPriorityOf : ErrorCategory → Nat
  | .network => 1
  | .unknown => 1
  | .parse => 2
  | .ssl => 3
  | .permanent => 4

/-- `_get_retry_priority(article)`: classify `article.get('last_error','')`
(falsy last error means the default middle priority 2). -/
def getRetryPriority (article : Article) : Nat :=
  if article.lastError.isEmpty then 2
  else retryPriorityOf (getErrorCategory article.lastError)

/-- Stable insertion used to model `failed_articles.sort(key=...)`. -/
def insertByRetryPriority (a : Article) : List Article → List Article
  | [] => [a]
  | b :: rest =>
      if getRetryPriority a ≤ getRetryPriority b then a :: b :: rest
      else b :: insertByRetryPriority a rest

/-- Stable sort of the retry candidates by ascending priority. -/
def sortByRetryPriority : List Article → List Article
  | [] => []
  | a :: rest => insertByRetryPriority a (sortByRetryPriority rest)

/-- How many physical fetches a log records for a given article id; used
to index the fetch oracle across the two passes. -/
def countFetchesFor (log : List Effect) (id : Nat) : Nat :=
  log.countP fun e => match e with | .fetch j => decide (j = id) | _ => false

/-- `ProgressState` fields tracked by the model (`current_url` and the
timestamps are presentation-only and omitted). -/
structure Progress where
  isRunning : Bool
  total : Nat
  current : Nat
  success : Nat
  failed : Nat
  retried : Nat
deriving DecidableEq

/-- The reset progress record. -/
def emptyProgress : Progress :=
  { isRunning := false, total := 0, current := 0, success := 0, failed := 0, retried := 0 }

/-- Accumulated observable outcome of pass 1. -/
structure Pass1Acc where
  success : Nat
  failed : Nat
  retried : Nat
  processed : Nat
  failedArticles : List Article
  log : List Effect
deriving DecidableEq

/-- Pass-1 accumulator before any task ran. -/
def emptyPass1 : Pass1Acc :=
  { success := 0, failed := 0, retried := 0, processed := 0, failedArticles := [], log := [] }

/-- Whether the cooperative stop flag is set when the task at `i` reaches
its entry check, for a run where the flag becomes set just before index
`n` (and never, for `none`). -/
def stopFired : Option Nat → Nat → Bool
  | none, _ => false
  | some n, i => decide (n ≤ i)

/-- Sequentialised pass 1: run `crawl_with_progress` over the interleaved
articles in order, collecting progress counters, the retry-candidate list
`failed_articles`, and the effect log. -/
def pass1Go (cfg : Config) (oracle : Nat → Nat → FetchOutcome)
    (dbLatest : Nat → Option Int) (stopAt : Option Nat) :
    Nat → List Article → Pass1Acc
  | _, [] => emptyPass1
  | i, a :: rest =>
      let acc := pass1Go cfg oracle dbLatest stopAt (i + 1) rest
      match crawlWithProgress cfg a (fun k => oracle a.id k) dbLatest (stopFired stopAt i) with
      | none => acc
      | some r =>
          { success := (if r.success then 1 else 0) + acc.success
            failed := (if r.success then 0 else 1) + acc.failed
            retried := r.retriedInc + acc.retried
            processed := 1 + acc.processed
            failedArticles := (if r.success then [] else [a]) ++ acc.failedArticles
            log := r.log ++ acc.log }

/-- Accumulated observable outcome of pass 2. -/
structure Pass2Acc where
  successCount : Nat
  retried : Nat
  processed : Nat
  log : List Effect
deriving DecidableEq

/-- Pass-2 accumulator before any task ran. -/
def emptyPass2 : Pass2Acc :=
  { successCount := 0, retried := 0, processed := 0, log := [] }

/-- Sequentialised pass 2 over the sorted retry candidates; `offsets`
shifts the fetch oracle past the attempts an article already consumed in
pass 1. -/
def pass2Go (cfg : Config) (oracle : Nat → Nat → FetchOutcome)
    (dbLatest : Nat → Option Int) (offsets : Nat → Nat) : List Article → Pass2Acc
  | [] => emptyPass2
  | a :: rest =>
      let r := retryWithPool cfg a (fun k => oracle a.id (offsets a.id + k)) dbLatest false
      let acc := pass2Go cfg oracle dbLatest offsets rest
      { successCount := (if r.success then 1 else 0) + acc.successCount
        retried := r.retriedInc + acc.retried
        processed := 1 + acc.processed
        log := r.log ++ acc.log }

/-- Whitelist filter, bulk preload of `_latest_count` (the batch query
overwrites the field), and optional interleaving — the list pass 1
actually iterates. -/
def processingOrder (cfg : Config) (arts : List Article)
    (latestBatch : Nat → Option Int) : List Article :=
  let filtered := arts.filter fun a => isPlatformAllowed cfg a.site
  let preloaded := filtered.map fun a => { a with latestCount := latestBatch a.id }
  if cfg.interleaveBySite then interleaveArticlesBySite preloaded else preloaded

/-- Observable outcome of one `crawl_all_articles()` batch. -/
structure BatchResult where
  progress : Progress
  failedArticles : List Article
  log : List Effect
deriving DecidableEq

/-- Batch outcome of the early-return paths (progress reset, nothing
done). -/
def emptyBatch : BatchResult :=
  { progress := emptyProgress, failedArticles := [], log := [] }

/-- Sequentialised `crawl_all_articles()`: early returns for an empty or
fully filtered-out article set; otherwise pass 1 over the processing
order, then — only when the stop flag is unset and some articles failed —
pass 2 over the failures sorted by retry priority, and the final progress
bookkeeping (`is_running := False`). -/
def crawlAllArticles (cfg : Config) (arts : List Article)
    (oracle : Nat → Nat → FetchOutcome) (dbLatest : Nat → Option Int)
    (latestBatch : Nat → Option Int) (stopAt : Option Nat) : BatchResult :=
  if arts.isEmpty then emptyBatch
  else if (arts.filter fun a => isPlatformAllowed cfg a.site).isEmpty then emptyBatch
  else
    let L := processingOrder cfg arts latestBatch
    let p1 := pass1Go cfg oracle dbLatest stopAt 0 L
    if stopAt.isNone ∧ ¬p1.failedArticles.isEmpty then
      let sorted := sortByRetryPriority p1.failedArticles
      let offsets := fun id => countFetchesFor p1.log id
      let p2 := pass2Go cfg oracle dbLatest offsets sorted
      { progress :=
          { isRunning := false, total := L.length, current := L.length + p2.processed
            success := p1.success + p2.successCount, failed := p1.failed - p2.successCount
            retried := p1.retried + p2.retried }
        failedArticles := p1.failedArticles
        log := p1.log ++ p2.log }
    else
      { progress :=
          { isRunning := false, total := L.length, current := p1.processed
            success := p1.success, failed := p1.failed, retried := p1.retried }
        failedArticles := p1.failedArticles
        log := p1.log }

/-- Observable outcome of `crawl_all_sync()`. -/
structure SyncResult where
  progress : Progress
  log : List Effect
deriving DecidableEq

/-- `crawl_all_sync()`: snapshot the progress; if a batch is already
running, return without doing anything; otherwise run one batch. -/
def crawlAllSync (cfg : Config) (prog : Progress) (arts : List Article)
    (oracle : Nat → Nat → FetchOutcome) (dbLatest : Nat → Option Int)
    (latestBatch : Nat → Option Int) (stopAt : Option Nat) : SyncResult :=
  if prog.isRunning then { progress := prog, log := [] }
  else
    let b := crawlAllArticles cfg arts oracle dbLatest latestBatch stopAt
    { progress := b.progress, log := b.log }

/-- A concrete whitelisted article used to instantiate theorems. -/
def sampleArticle : Article :=
  { id := 1, url := "https://example.com/a".toList, site := some "csdn".toList,
    title := [], latestCount := none, lastError := [] }

/-- The default configuration with interleaving off (`CRAWL_INTERLEAVE_BY_SITE`
unset), used for concrete batch evaluations. -/
def noInterleaveConfig : Config := { defaultConfig with interleaveBySite := false }

/-- The content of the group keyed `d` (empty when absent) — how the
`groups` dict of `_interleave_articles_by_site` is read. -/
def lookupGroup : List (List Char × List Article) → List Char → List Article
  | [], _ => []
  | (k, l) :: rest, d => if k = d then l else lookupGroup rest d

/-- The head of a group as a (zero- or one-element) list. -/
def headList : List Article → List Article
  | [] => []
  | a :: _ => [a]

/-- The keyed groups after one round-robin sweep removed each head. -/
def tailGroups (gs : List (List Char × List Article)) : List (List Char × List Article) :=
  gs.map fun g => (g.1, g.2.tail)

/-! ## Theorems -/

theorem leadsWith_map_toLower (kw : List Char) :
    ∀ s : List Char, leadsWith kw s = true →
      leadsWith (kw.map Char.toLower) (s.map Char.toLower) = true := by
  induction kw with
  | nil => intro s _; rfl
  | cons a as ih =>
    intro s h
    cases s with
    | nil => simp [leadsWith] at h
    | cons b bs =>
      simp only [leadsWith, Bool.and_eq_true, beq_iff_eq] at h
      simp only [List.map_cons, leadsWith, Bool.and_eq_true, beq_iff_eq]
      exact ⟨by rw [h.1], ih bs h.2⟩

theorem hasKeyword_map_toLower (kw : List Char) :
    ∀ s : List Char, hasKeyword kw s = true →
      hasKeyword (kw.map Char.toLower) (s.map Char.toLower) = true := by
  intro s
  induction s with
  | nil =>
    intro h
    simp only [hasKeyword, List.isEmpty_eq_true] at h
    subst h
    rfl
  | cons c rest ih =>
    intro h
    simp only [hasKeyword, Bool.or_eq_true] at h
    rcases h with h | h
    · have h2 := leadsWith_map_toLower kw (c :: rest) h
      simp only [List.map_cons] at h2 ⊢
      simp [hasKeyword, h2]
    · have h2 := ih h
      simp only [List.map_cons]
      simp [hasKeyword, h2]

/-- Claim C4: error classification is a pure function of the error's
string representation checked in the fixed priority order of
`_get_error_category`; every error message containing `"404"` is
classified Permanent, and the Permanent retry budget is 0 under every
configuration. -/
theorem c4_404_is_permanent (s : List Char) (h : hasKeyword "404".toList s = true) :
    getErrorCategory s = ErrorCategory.permanent ∧
      ∀ cfg : Config, getMaxRetriesForCategory cfg ErrorCategory.permanent = 0 := by
  have h2 := hasKeyword_map_toLower "404".toList s h
  have h3 : "404".toList.map Char.toLower = "404".toList := by decide
  rw [h3] at h2
  have h4 : containsAnyKeyword (s.map Char.toLower) permanentKeywords = true := by
    simp only [containsAnyKeyword, permanentKeywords, List.map_cons, List.any_cons,
      Bool.or_eq_true]
    exact Or.inl h2
  exact ⟨by simp [getErrorCategory, h4], fun _ => rfl⟩

/-- Witness for C4 at the concrete error message `"HTTP 404 Not Found"`. -/
theorem c4_404_is_permanent_witness :
    getErrorCategory "HTTP 404 Not Found".toList = ErrorCategory.permanent ∧
      ∀ cfg : Config, getMaxRetriesForCategory cfg ErrorCategory.permanent = 0 :=
  c4_404_is_permanent "HTTP 404 Not Found".toList (by decide)

/-- Claim C6: for the Network (and Unknown) category the pre-jitter delay
is `base * backoff ^ (attempt - 1)` capped at the maximum delay; with
jitter disabled the computed delay is exactly that value, and it is
monotone non-decreasing in the attempt number whenever the base is
non-negative and the backoff factor at least 1 (as in the shipped
defaults 2 and 1.5). -/
theorem c6_network_backoff (cfg : Config) (attempt : Nat) (h1 : 1 ≤ attempt)
    (h2 : 0 ≤ cfg.retryDelay) (h3 : 1 ≤ cfg.retryBackoff) :
    calculateRetryDelayPre cfg ErrorCategory.network attempt
        = min (cfg.retryDelay * cfg.retryBackoff ^ (attempt - 1)) cfg.retryMaxDelay
      ∧ calculateRetryDelayPre cfg ErrorCategory.unknown attempt
        = calculateRetryDelayPre cfg ErrorCategory.network attempt
      ∧ (cfg.retryJitter = false → ∀ jitterSample : ℚ,
          calculateRetryDelay cfg ErrorCategory.network attempt jitterSample
            = calculateRetryDelayPre cfg ErrorCategory.network attempt)
      ∧ calculateRetryDelayPre cfg ErrorCategory.network attempt
        ≤ calculateRetryDelayPre cfg ErrorCategory.network (attempt + 1) := by
  refine ⟨rfl, rfl, fun hj _ => by simp [calculateRetryDelay, hj], ?_⟩
  have hpow : cfg.retryBackoff ^ (attempt - 1) ≤ cfg.retryBackoff ^ (attempt + 1 - 1) := by
    exact pow_le_pow_right₀ h3 (by omega)
  have hmul : cfg.retryDelay * cfg.retryBackoff ^ (attempt - 1)
      ≤ cfg.retryDelay * cfg.retryBackoff ^ (attempt + 1 - 1) :=
    mul_le_mul_of_nonneg_left hpow h2
  exact min_le_min hmul le_rfl

/-- Witness for C6 at the jitter-disabled default configuration,
attempt 1 versus attempt 2. -/
theorem c6_network_backoff_witness :
    calculateRetryDelayPre { defaultConfig with retryJitter := false } ErrorCategory.network 1
      ≤ calculateRetryDelayPre { defaultConfig with retryJitter := false } ErrorCategory.network 2 :=
  (c6_network_backoff { defaultConfig with retryJitter := false } 1 le_rfl
    (by norm_num [defaultConfig]) (by norm_num [defaultConfig])).2.2.2

/-- Claim C9: when a batch is already running (`is_running` true in the
progress snapshot), `crawl_all_sync` returns without starting a batch: the
progress state is returned unchanged and no effect is produced. -/
theorem c9_reentry_guard (cfg : Config) (prog : Progress) (arts : List Article)
    (oracle : Nat → Nat → FetchOutcome) (dbLatest latestBatch : Nat → Option Int)
    (stopAt : Option Nat) (h : prog.isRunning = true) :
    crawlAllSync cfg prog arts oracle dbLatest latestBatch stopAt
      = { progress := prog, log := [] } := by
  simp [crawlAllSync, h]

/-- Witness for C9 at a concrete running progress snapshot. -/
theorem c9_reentry_guard_witness :
    crawlAllSync defaultConfig { emptyProgress with isRunning := true } [sampleArticle]
        (fun _ _ => FetchOutcome.ok none none) (fun _ => none) (fun _ => none) none
      = { progress := { emptyProgress with isRunning := true }, log := [] } :=
  c9_reentry_guard defaultConfig { emptyProgress with isRunning := true } [sampleArticle]
    (fun _ _ => FetchOutcome.ok none none) (fun _ => none) (fun _ => none) none rfl

theorem fetchCount_append (l₁ l₂ : List Effect) :
    fetchCount (l₁ ++ l₂) = fetchCount l₁ + fetchCount l₂ := by
  induction l₁ with
  | nil => simp [fetchCount]
  | cons e rest ih => cases e <;> simp [fetchCount, ih] <;> omega

theorem rateWaitCount_append (l₁ l₂ : List Effect) :
    rateWaitCount (l₁ ++ l₂) = rateWaitCount l₁ + rateWaitCount l₂ := by
  induction l₁ with
  | nil => simp [rateWaitCount]
  | cons e rest ih => cases e <;> simp [rateWaitCount, ih] <;> omega

theorem slotCount_append (l₁ l₂ : List Effect) :
    slotCount (l₁ ++ l₂) = slotCount l₁ + slotCount l₂ := by
  induction l₁ with
  | nil => simp [slotCount]
  | cons e rest ih => cases e <;> simp [slotCount, ih] <;> omega

theorem readAddCount_append (l₁ l₂ : List Effect) :
    readAddCount (l₁ ++ l₂) = readAddCount l₁ + readAddCount l₂ := by
  induction l₁ with
  | nil => simp [readAddCount]
  | cons e rest ih => cases e <;> simp [readAddCount, ih] <;> omega

theorem statusUpdatesOf_append (l₁ l₂ : List Effect) :
    statusUpdatesOf (l₁ ++ l₂) = statusUpdatesOf l₁ ++ statusUpdatesOf l₂ := by
  induction l₁ with
  | nil => simp [statusUpdatesOf]
  | cons e rest ih => cases e <;> simp [statusUpdatesOf, ih]

theorem titleUpdateLog_fetchCount (a : Article) (t : Option (List Char)) :
    fetchCount (titleUpdateLog a t) = 0 := by
  cases t with
  | none => rfl
  | some s =>
    simp only [titleUpdateLog]
    split <;> rfl

theorem titleUpdateLog_readAddCount (a : Article) (t : Option (List Char)) :
    readAddCount (titleUpdateLog a t) = 0 := by
  cases t with
  | none => rfl
  | some s =>
    simp only [titleUpdateLog]
    split <;> rfl

theorem titleUpdateLog_statusUpdatesOf (a : Article) (t : Option (List Char)) :
    statusUpdatesOf (titleUpdateLog a t) = [] := by
  cases t with
  | none => rfl
  | some s =>
    simp only [titleUpdateLog]
    split <;> rfl

/-- Claim C1, evaluated at the failing input: in FullRetry mode with the
default budgets (`CRAWL_MAX_RETRIES = 10`, `CRAWL_RETRY_PARSE_MAX = 3`),
an error persistently classified Parse receives 5 fetch attempts — i.e.
4 retries, one more than the category budget the claim (and the code's own
`尝试 attempt+1/effective+1` log lines) allow — because the loop guard is
`attempt <= effective_max_retries` with a 0-based `attempt`.  The run does
end in a terminal Failure without raising. -/
theorem c1_parse_budget_exceeded :
    fetchCount (crawlWithRetry defaultConfig sampleArticle
        (fun _ => FetchOutcome.raise "parse".toList) (fun _ => none) 10 true).log = 5
    ∧ (crawlWithRetry defaultConfig sampleArticle
        (fun _ => FetchOutcome.raise "parse".toList) (fun _ => none) 10 true).success = false := by
  decide

/-- Claim C2: with an allowed platform and the stop flag unset, a FastFail
invocation (`skip_retry=True`) performs exactly one physical fetch,
whatever the outcome of that single attempt. -/
theorem c2_fastfail_single_attempt (cfg : Config) (article : Article)
    (fetch : Nat → FetchOutcome) (dbLatest : Nat → Option Int) (maxRetries : Nat)
    (h : isPlatformAllowed cfg article.site = true) :
    fetchCount (crawlArticleWithRetry cfg article fetch dbLatest maxRetries true false).log = 1 := by
  have hskip : crawlArticleWithRetry cfg article fetch dbLatest maxRetries true false
      = crawlWithRetry cfg article fetch dbLatest 0 false := by
    simp [crawlArticleWithRetry, h]
  rw [hskip]
  unfold crawlWithRetry
  cases hf : fetch 0 with
  | raise e =>
    by_cases hcat : getErrorCategory e = ErrorCategory.permanent
    · simp [crawlGo, hf, hcat, fetchCount, fetchCount_append]
    · have hretry : isRetryableError e = true := by
        simp [isRetryableError, hcat]
      simp [crawlGo, hf, hcat, hretry, fetchCount, fetchCount_append]
  | ok readCount newTitle =>
    cases readCount with
    | none =>
      simp [crawlGo, hf, fetchCount, fetchCount_append, titleUpdateLog_fetchCount]
    | some c =>
      simp only [crawlGo, hf]
      split <;>
        simp [fetchCount, fetchCount_append, titleUpdateLog_fetchCount]

/-- Witness for C2: a whitelisted article whose single attempt raises a
network error is fetched exactly once. -/
theorem c2_fastfail_single_attempt_witness :
    fetchCount (crawlArticleWithRetry defaultConfig sampleArticle
      (fun _ => FetchOutcome.raise "timeout".toList) (fun _ => none) 10 true false).log = 1 :=
  c2_fastfail_single_attempt defaultConfig sampleArticle
    (fun _ => FetchOutcome.raise "timeout".toList) (fun _ => none) 10 (by decide)

/-- Counterexample to claim C3: an article whose every fetch raises a
permanent `404` error is nevertheless fetched twice in a batch — once in
the FastFail pass (where it is not marked ERROR but appended to the
retry candidates) and once more in the concentrated-retry pass, where the
ERROR statuses are finally written. -/
theorem c3_permanent_refetched_in_pass2 :
    (crawlAllArticles noInterleaveConfig [sampleArticle]
        (fun _ _ => FetchOutcome.raise "404".toList) (fun _ => none) (fun _ => none) none).log
      = [Effect.rateWait "example.com".toList, Effect.acquireSlot "example.com".toList,
         Effect.fetch 1,
         Effect.acquireSlot "example.com".toList, Effect.rateWait "example.com".toList,
         Effect.fetch 1,
         Effect.statusUpdate 1 statusERROR (some "404".toList),
         Effect.statusUpdate 1 statusERROR (some retryFailedMsg)]
    ∧ fetchCount (crawlAllArticles noInterleaveConfig [sampleArticle]
        (fun _ _ => FetchOutcome.raise "404".toList) (fun _ => none) (fun _ => none) none).log
      = 2 := by
  decide

/-- Claim C3 as amended: within one worker invocation a Permanent-classified
fetch error terminates the retry loop at once — that invocation performs no
further attempt and returns Failure — and the ERROR status (message
truncated to 100 characters) is written immediately iff
`mark_error_on_fail` holds, i.e. in the FullRetry pass; in the FastFail
pass the failure is left unmarked and the article is re-run once by the
concentrated-retry pass. -/
theorem c3_permanent_stops_worker (cfg : Config) (article : Article)
    (fetch : Nat → FetchOutcome) (dbLatest : Nat → Option Int) (maxRetries : Nat)
    (markErrorOnFail : Bool) (e : List Char) (hf : fetch 0 = FetchOutcome.raise e)
    (hcat : getErrorCategory e = ErrorCategory.permanent) :
    (crawlWithRetry cfg article fetch dbLatest maxRetries markErrorOnFail).log
      = [Effect.fetch article.id] ++
        (if markErrorOnFail then
          [Effect.statusUpdate article.id statusERROR (some (e.take 100))]
        else [])
    ∧ (crawlWithRetry cfg article fetch dbLatest maxRetries markErrorOnFail).success = false := by
  unfold crawlWithRetry
  simp [crawlGo, hf, hcat]

/-- Witness for the amended C3 at a concrete 404-raising fetch. -/
theorem c3_permanent_stops_worker_witness :
    (crawlWithRetry defaultConfig sampleArticle
        (fun _ => FetchOutcome.raise "404".toList) (fun _ => none) 10 true).log
      = [Effect.fetch sampleArticle.id] ++
        (if true then
          [Effect.statusUpdate sampleArticle.id statusERROR (some ("404".toList.take 100))]
        else [])
    ∧ (crawlWithRetry defaultConfig sampleArticle
        (fun _ => FetchOutcome.raise "404".toList) (fun _ => none) 10 true).success = false :=
  c3_permanent_stops_worker defaultConfig sampleArticle
    (fun _ => FetchOutcome.raise "404".toList) (fun _ => none) 10 true "404".toList rfl
    (by decide)

/-- Claim C7: when the fetch returns a count equal to the preloaded
last-known count, the worker persists nothing (`add_read_count` is never
called), writes exactly one OK status, and returns success. -/
theorem c7_unchanged_count_not_persisted (cfg : Config) (article : Article)
    (fetch : Nat → FetchOutcome) (dbLatest : Nat → Option Int) (maxRetries : Nat)
    (markErrorOnFail : Bool) (c : Int) (t : Option (List Char))
    (hl : article.latestCount = some c) (hf : fetch 0 = FetchOutcome.ok (some c) t) :
    (crawlWithRetry cfg article fetch dbLatest maxRetries markErrorOnFail).success = true
    ∧ readAddCount (crawlWithRetry cfg article fetch dbLatest maxRetries markErrorOnFail).log = 0
    ∧ statusUpdatesOf (crawlWithRetry cfg article fetch dbLatest maxRetries markErrorOnFail).log
      = [Effect.statusUpdate article.id statusOK none] := by
  unfold crawlWithRetry
  simp [crawlGo, hf, hl, readAddCount, readAddCount_append, titleUpdateLog_readAddCount,
    statusUpdatesOf, statusUpdatesOf_append, titleUpdateLog_statusUpdatesOf]

/-- Witness for C7: preloaded count 50, fetch returns 50. -/
theorem c7_unchanged_count_not_persisted_witness :
    (crawlWithRetry defaultConfig { sampleArticle with latestCount := some 50 }
        (fun _ => FetchOutcome.ok (some 50) none) (fun _ => none) 10 true).success = true
    ∧ readAddCount (crawlWithRetry defaultConfig { sampleArticle with latestCount := some 50 }
        (fun _ => FetchOutcome.ok (some 50) none) (fun _ => none) 10 true).log = 0
    ∧ statusUpdatesOf (crawlWithRetry defaultConfig { sampleArticle with latestCount := some 50 }
        (fun _ => FetchOutcome.ok (some 50) none) (fun _ => none) 10 true).log
      = [Effect.statusUpdate { sampleArticle with latestCount := some 50 }.id statusOK none] :=
  c7_unchanged_count_not_persisted defaultConfig { sampleArticle with latestCount := some 50 }
    (fun _ => FetchOutcome.ok (some 50) none) (fun _ => none) 10 true 50 none rfl rfl

theorem titleUpdateLog_rateWaitCount (a : Article) (t : Option (List Char)) :
    rateWaitCount (titleUpdateLog a t) = 0 := by
  cases t with
  | none => rfl
  | some s =>
    simp only [titleUpdateLog]
    split <;> rfl

theorem titleUpdateLog_slotCount (a : Article) (t : Option (List Char)) :
    slotCount (titleUpdateLog a t) = 0 := by
  cases t with
  | none => rfl
  | some s =>
    simp only [titleUpdateLog]
    split <;> rfl

theorem crawlGo_rateWaitCount (cfg : Config) (article : Article) (fetch : Nat → FetchOutcome)
    (dbLatest : Nat → Option Int) (maxRetries : Nat) (markErrorOnFail : Bool) :
    ∀ (fuel attempt : Nat) (lastError : Option (List Char)) (lastErrorCat : Option ErrorCategory),
      rateWaitCount (crawlGo cfg article fetch dbLatest maxRetries markErrorOnFail
        fuel attempt lastError lastErrorCat).log = 0 := by
  intro fuel
  induction fuel with
  | zero =>
    intro attempt lastError lastErrorCat
    simp only [crawlGo]
    split <;> rfl
  | succ fuel ih =>
    intro attempt lastError lastErrorCat
    cases hf : fetch attempt
    all_goals simp only [crawlGo, hf]
    all_goals repeat' split
    all_goals
      simp [rateWaitCount, rateWaitCount_append, titleUpdateLog_rateWaitCount, ih]

theorem crawlGo_slotCount (cfg : Config) (article : Article) (fetch : Nat → FetchOutcome)
    (dbLatest : Nat → Option Int) (maxRetries : Nat) (markErrorOnFail : Bool) :
    ∀ (fuel attempt : Nat) (lastError : Option (List Char)) (lastErrorCat : Option ErrorCategory),
      slotCount (crawlGo cfg article fetch dbLatest maxRetries markErrorOnFail
        fuel attempt lastError lastErrorCat).log = 0 := by
  intro fuel
  induction fuel with
  | zero =>
    intro attempt lastError lastErrorCat
    simp only [crawlGo]
    split <;> rfl
  | succ fuel ih =>
    intro attempt lastError lastErrorCat
    cases hf : fetch attempt
    all_goals simp only [crawlGo, hf]
    all_goals repeat' split
    all_goals
      simp [slotCount, slotCount_append, titleUpdateLog_slotCount, ih]

theorem crawlGo_fetch_pos (cfg : Config) (article : Article) (fetch : Nat → FetchOutcome)
    (dbLatest : Nat → Option Int) (maxRetries : Nat) (markErrorOnFail : Bool)
    (fuel attempt : Nat) (lastError : Option (List Char)) (lastErrorCat : Option ErrorCategory) :
    1 ≤ fetchCount (crawlGo cfg article fetch dbLatest maxRetries markErrorOnFail
      (fuel + 1) attempt lastError lastErrorCat).log := by
  cases hf : fetch attempt
  all_goals simp only [crawlGo, hf]
  all_goals repeat' split
  all_goals
    simp [fetchCount, fetchCount_append, titleUpdateLog_fetchCount]

/-- Counterexample to claim C5: a FullRetry invocation with a persistent
network error performs 11 physical fetch attempts but only one per-domain
spacing wait — the wait is not repeated before the retry attempts of the
worker's loop. -/
theorem c5_wait_not_before_every_attempt :
    rateWaitCount (retryWithPool defaultConfig sampleArticle
        (fun _ => FetchOutcome.raise "timeout".toList) (fun _ => none) false).log = 1
    ∧ fetchCount (retryWithPool defaultConfig sampleArticle
        (fun _ => FetchOutcome.raise "timeout".toList) (fun _ => none) false).log = 11 := by
  decide

/-- Claim C5 as amended: with per-domain spacing and per-domain
concurrency enabled, each worker invocation performs the spacing wait
exactly once — before its first fetch attempt — and acquires the
per-domain slot exactly once, holding it across all (one or more) fetch
attempts of that invocation; retries inside the loop repeat neither. -/
theorem c5_throttle_once_per_invocation (cfg : Config) (article : Article)
    (fetch : Nat → FetchOutcome) (dbLatest : Nat → Option Int)
    (h1 : 0 < cfg.minDelayPerDomain) (h2 : 0 < cfg.concurrencyPerDomain) :
    rateWaitCount (retryWithPool cfg article fetch dbLatest false).log = 1
    ∧ slotCount (retryWithPool cfg article fetch dbLatest false).log = 1
    ∧ 1 ≤ fetchCount (retryWithPool cfg article fetch dbLatest false).log
    ∧ rateWaitCount ((crawlWithProgress cfg article fetch dbLatest false).getD emptyResult).log = 1
    ∧ slotCount ((crawlWithProgress cfg article fetch dbLatest false).getD emptyResult).log = 1 := by
  have hwait : rateLimitLog cfg (domainFromArticle article) = [.rateWait (domainFromArticle article)] := by
    simp [rateLimitLog, h1]
  have hslot : domainSlotLog cfg (domainFromArticle article) = [.acquireSlot (domainFromArticle article)] := by
    simp [domainSlotLog, h2]
  have hcrawlWait : ∀ maxRetries markErrorOnFail,
      rateWaitCount (crawlWithRetry cfg article fetch dbLatest maxRetries markErrorOnFail).log = 0 :=
    fun maxRetries markErrorOnFail =>
      crawlGo_rateWaitCount cfg article fetch dbLatest maxRetries markErrorOnFail _ 0 none none
  have hcrawlSlot : ∀ maxRetries markErrorOnFail,
      slotCount (crawlWithRetry cfg article fetch dbLatest maxRetries markErrorOnFail).log = 0 :=
    fun maxRetries markErrorOnFail =>
      crawlGo_slotCount cfg article fetch dbLatest maxRetries markErrorOnFail _ 0 none none
  have hworkerWait : ∀ maxRetries skipRetry,
      rateWaitCount (crawlArticleWithRetry cfg article fetch dbLatest maxRetries skipRetry false).log = 0 := by
    intro maxRetries skipRetry
    by_cases ha : isPlatformAllowed cfg article.site <;>
      simp [crawlArticleWithRetry, ha, emptyResult, rateWaitCount, hcrawlWait]
  have hworkerSlot : ∀ maxRetries skipRetry,
      slotCount (crawlArticleWithRetry cfg article fetch dbLatest maxRetries skipRetry false).log = 0 := by
    intro maxRetries skipRetry
    by_cases ha : isPlatformAllowed cfg article.site <;>
      simp [crawlArticleWithRetry, ha, emptyResult, slotCount, hcrawlSlot]
  refine ⟨?_, ?_, ?_, ?_, ?_⟩
  · simp only [retryWithPool, if_neg (by simp : ¬(false = true))]
    split <;>
      simp [rateWaitCount_append, hwait, hslot, hcrawlWait, rateWaitCount]
  · simp only [retryWithPool, if_neg (by simp : ¬(false = true))]
    split <;>
      simp [slotCount_append, hwait, hslot, hcrawlSlot, slotCount]
  · simp only [retryWithPool, if_neg (by simp : ¬(false = true))]
    have hpos := crawlGo_fetch_pos cfg article fetch dbLatest cfg.maxRetries true
      cfg.maxRetries 0 none none
    split <;>
      simp [fetchCount_append, hwait, hslot, fetchCount, crawlWithRetry] <;>
      first
        | (exact le_trans hpos (by simp [crawlWithRetry, fetchCount_append]; omega))
        | omega
  · simp [crawlWithProgress, rateWaitCount_append, hwait, hslot, hworkerWait, rateWaitCount]
  · simp [crawlWithProgress, slotCount_append, hwait, hslot, hworkerSlot, slotCount]

/-- Witness for the amended C5 at the default configuration and a
persistently failing fetch. -/
theorem c5_throttle_once_per_invocation_witness :
    rateWaitCount (retryWithPool defaultConfig sampleArticle
        (fun _ => FetchOutcome.raise "timeout".toList) (fun _ => none) false).log = 1
    ∧ slotCount (retryWithPool defaultConfig sampleArticle
        (fun _ => FetchOutcome.raise "timeout".toList) (fun _ => none) false).log = 1
    ∧ 1 ≤ fetchCount (retryWithPool defaultConfig sampleArticle
        (fun _ => FetchOutcome.raise "timeout".toList) (fun _ => none) false).log
    ∧ rateWaitCount ((crawlWithProgress defaultConfig sampleArticle
        (fun _ => FetchOutcome.raise "timeout".toList) (fun _ => none) false).getD emptyResult).log = 1
    ∧ slotCount ((crawlWithProgress defaultConfig sampleArticle
        (fun _ => FetchOutcome.raise "timeout".toList) (fun _ => none) false).getD emptyResult).log = 1 :=
  c5_throttle_once_per_invocation defaultConfig sampleArticle
    (fun _ => FetchOutcome.raise "timeout".toList) (fun _ => none)
    (by norm_num [defaultConfig]) (by norm_num [defaultConfig])

theorem pass1Go_stopped (cfg : Config) (oracle : Nat → Nat → FetchOutcome)
    (dbLatest : Nat → Option Int) (n : Nat) :
    ∀ (arts : List Article) (i : Nat), n ≤ i →
      pass1Go cfg oracle dbLatest (some n) i arts = emptyPass1 := by
  intro arts
  induction arts with
  | nil => intro i _; rfl
  | cons a rest ih =>
    intro i h
    have hs : stopFired (some n) i = true := by simp [stopFired, h]
    simp [pass1Go, crawlWithProgress, hs, ih (i + 1) (by omega)]

theorem pass1Go_stop_take (cfg : Config) (oracle : Nat → Nat → FetchOutcome)
    (dbLatest : Nat → Option Int) (n : Nat) :
    ∀ (arts : List Article) (i : Nat),
      pass1Go cfg oracle dbLatest (some n) i arts
        = pass1Go cfg oracle dbLatest none i (arts.take (n - i)) := by
  intro arts
  induction arts with
  | nil => intro i; simp [pass1Go, List.take_nil]
  | cons a rest ih =>
    intro i
    by_cases h : n ≤ i
    · have h0 : n - i = 0 := by omega
      rw [h0, pass1Go_stopped cfg oracle dbLatest n (a :: rest) i h]
      rfl
    · have hs : stopFired (some n) i = false := by
        simp only [stopFired, decide_eq_false_iff_not]
        omega
      have htake : (a :: rest).take (n - i) = a :: rest.take (n - (i + 1)) := by
        have h1 : n - i = (n - (i + 1)) + 1 := by omega
        rw [h1, List.take_succ_cons]
      rw [htake]
      simp only [pass1Go, hs]
      rw [ih (i + 1)]
      rfl

theorem pass1Go_failed_sublist (cfg : Config) (oracle : Nat → Nat → FetchOutcome)
    (dbLatest : Nat → Option Int) (stopAt : Option Nat) :
    ∀ (arts : List Article) (i : Nat),
      List.Sublist (pass1Go cfg oracle dbLatest stopAt i arts).failedArticles arts := by
  intro arts
  induction arts with
  | nil => intro i; exact List.Sublist.refl _
  | cons a rest ih =>
    intro i
    cases hw : crawlWithProgress cfg a (fun k => oracle a.id k) dbLatest (stopFired stopAt i) with
    | none =>
      simp only [pass1Go, hw]
      exact (ih (i + 1)).cons a
    | some r =>
      by_cases hs : r.success
      · simp only [pass1Go, hw, hs, if_pos, List.nil_append]
        exact (ih (i + 1)).cons a
      · simp only [pass1Go, hw, hs, if_neg, List.cons_append, List.nil_append]
        exact (ih (i + 1)).cons₂ a

/-- Claim C8: in a batch where the cooperative stop flag becomes set just
before the `n`-th task starts, the batch behaves exactly like pass 1 run
over only the first `n` articles of the processing order: the later
articles appear in no outcome — they are absent from the retry-candidate
list (which is a sublist of the attempted prefix), contribute no effect
(in particular no ERROR status), and do not increment the failed counter —
and the concentrated-retry pass is skipped. -/
theorem c8_stop_omits_unattempted (cfg : Config) (arts : List Article)
    (oracle : Nat → Nat → FetchOutcome) (dbLatest latestBatch : Nat → Option Int) (n : Nat) :
    (crawlAllArticles cfg arts oracle dbLatest latestBatch (some n)).failedArticles
        = (pass1Go cfg oracle dbLatest none 0
            ((processingOrder cfg arts latestBatch).take n)).failedArticles
    ∧ (crawlAllArticles cfg arts oracle dbLatest latestBatch (some n)).log
        = (pass1Go cfg oracle dbLatest none 0
            ((processingOrder cfg arts latestBatch).take n)).log
    ∧ (crawlAllArticles cfg arts oracle dbLatest latestBatch (some n)).progress.failed
        = (pass1Go cfg oracle dbLatest none 0
            ((processingOrder cfg arts latestBatch).take n)).failed
    ∧ List.Sublist
        (pass1Go cfg oracle dbLatest none 0
          ((processingOrder cfg arts latestBatch).take n)).failedArticles
        ((processingOrder cfg arts latestBatch).take n) := by
  have hsub := pass1Go_failed_sublist cfg oracle dbLatest none
    ((processingOrder cfg arts latestBatch).take n) 0
  by_cases h1 : arts.isEmpty = true
  · have harts : arts = [] := by
      cases arts with
      | nil => rfl
      | cons a rest => simp [List.isEmpty] at h1
    subst harts
    refine ⟨?_, ?_, ?_, hsub⟩ <;>
      simp [crawlAllArticles, processingOrder, interleaveArticlesBySite, pass1Go,
        emptyBatch, emptyPass1, emptyProgress]
  · by_cases h2 : (arts.filter fun a => isPlatformAllowed cfg a.site).isEmpty = true
    · have hfe : (arts.filter fun a => isPlatformAllowed cfg a.site) = [] := by
        cases hq : arts.filter fun a => isPlatformAllowed cfg a.site with
        | nil => rfl
        | cons b rest => rw [hq] at h2; simp [List.isEmpty] at h2
      have hL : processingOrder cfg arts latestBatch = [] := by
        simp [processingOrder, hfe, interleaveArticlesBySite]
      refine ⟨?_, ?_, ?_, hsub⟩ <;>
        simp [crawlAllArticles, h1, h2, hL, pass1Go, emptyBatch, emptyPass1, emptyProgress]
    · have hstop : pass1Go cfg oracle dbLatest (some n) 0 (processingOrder cfg arts latestBatch)
          = pass1Go cfg oracle dbLatest none 0 ((processingOrder cfg arts latestBatch).take n) := by
        simpa using pass1Go_stop_take cfg oracle dbLatest n (processingOrder cfg arts latestBatch) 0
      refine ⟨?_, ?_, ?_, hsub⟩ <;>
        simp [crawlAllArticles, h1, h2, hstop]

theorem sumLen_zero_flatten {gs : List (List Article)} (h : sumLen gs = 0) :
    gs.flatten = [] := by
  induction gs with
  | nil => rfl
  | cons l gs ih =>
    simp only [sumLen] at h
    have hl : l = [] := List.length_eq_zero.mp (by omega)
    have hg : sumLen gs = 0 := by omega
    subst hl
    simpa using ih hg

theorem headsOf_cons (l : List Article) (gs : List (List Article)) :
    headsOf (l :: gs) = headList l ++ headsOf gs := by
  cases l <;> rfl

theorem headList_append_tail (l : List Article) : headList l ++ l.tail = l := by
  cases l <;> rfl

theorem sumLen_tailsOf_le (gs : List (List Article)) : sumLen (tailsOf gs) ≤ sumLen gs := by
  induction gs with
  | nil => simp [tailsOf, sumLen]
  | cons l gs ih =>
    have hlen : l.tail.length ≤ l.length := by
      cases l <;> simp
    simp only [tailsOf, List.map_cons, sumLen] at *
    omega

theorem sumLen_tailsOf_lt (gs : List (List Article)) (h : sumLen gs ≠ 0) :
    sumLen (tailsOf gs) < sumLen gs := by
  induction gs with
  | nil => simp [sumLen] at h
  | cons l gs ih =>
    cases l with
    | nil =>
      have hg : sumLen gs ≠ 0 := by simpa [sumLen] using h
      have hlt := ih hg
      simp only [tailsOf, List.map_cons, List.tail_nil, sumLen, List.length_nil] at *
      omega
    | cons a t =>
      have hle := sumLen_tailsOf_le gs
      simp only [tailsOf, List.map_cons, List.tail_cons, sumLen, List.length_cons] at *
      omega

theorem headsOf_tailsOf_flatten_perm (gs : List (List Article)) :
    (headsOf gs ++ (tailsOf gs).flatten).Perm gs.flatten := by
  induction gs with
  | nil => simp [headsOf, tailsOf]
  | cons l gs ih =>
    cases l with
    | nil =>
      simpa [headsOf, tailsOf] using ih
    | cons a t =>
      show (a :: (headsOf gs ++ (t ++ (tailsOf gs).flatten))).Perm (a :: (t ++ gs.flatten))
      refine List.Perm.cons a ?_
      have h1 : headsOf gs ++ (t ++ (tailsOf gs).flatten)
          = (headsOf gs ++ t) ++ (tailsOf gs).flatten := by rw [List.append_assoc]
      have h2 : ((headsOf gs ++ t) ++ (tailsOf gs).flatten).Perm
          ((t ++ headsOf gs) ++ (tailsOf gs).flatten) :=
        List.Perm.append_right _ List.perm_append_comm
      have h3 : (t ++ headsOf gs) ++ (tailsOf gs).flatten
          = t ++ (headsOf gs ++ (tailsOf gs).flatten) := by rw [List.append_assoc]
      have h4 : (t ++ (headsOf gs ++ (tailsOf gs).flatten)).Perm (t ++ gs.flatten) :=
        List.Perm.append_left t ih
      rw [h1]
      exact (h2.trans (h3 ▸ h4))

theorem roundRobinGo_perm :
    ∀ (fuel : Nat) (gs : List (List Article)), sumLen gs ≤ fuel →
      (roundRobinGo fuel gs).Perm gs.flatten := by
  intro fuel
  induction fuel with
  | zero =>
    intro gs h
    have h0 : sumLen gs = 0 := Nat.le_zero.mp h
    rw [sumLen_zero_flatten h0]
    exact List.Perm.nil
  | succ fuel ih =>
    intro gs h
    by_cases h0 : sumLen gs = 0
    · simp only [roundRobinGo, if_pos h0]
      rw [sumLen_zero_flatten h0]
    · simp only [roundRobinGo, if_neg h0]
      have hlt := sumLen_tailsOf_lt gs h0
      have hle : sumLen (tailsOf gs) ≤ fuel := by omega
      exact (List.Perm.append_left (headsOf gs) (ih (tailsOf gs) hle)).trans
        (headsOf_tailsOf_flatten_perm gs)

theorem addToGroups_flatten_perm :
    ∀ (gs : List (List Char × List Article)) (k : List Char) (a : Article),
      (((addToGroups gs k a).map Prod.snd).flatten).Perm (a :: (gs.map Prod.snd).flatten) := by
  intro gs
  induction gs with
  | nil =>
    intro k a
    simp [addToGroups]
  | cons p rest ih =>
    intro k a
    obtain ⟨k', l⟩ := p
    by_cases hk : k' = k
    · simp only [addToGroups, if_pos hk, List.map_cons, List.flatten_cons]
      have h1 : (l ++ [a]) ++ ((rest.map Prod.snd).flatten)
          = l ++ (a :: (rest.map Prod.snd).flatten) := by simp
      rw [h1]
      exact List.perm_middle
    · simp only [addToGroups, if_neg hk, List.map_cons, List.flatten_cons]
      exact (List.Perm.append_left l (ih k a)).trans List.perm_middle

theorem foldl_addToGroups_flatten_perm (arts : List Article) :
    ∀ gs : List (List Char × List Article),
      (((arts.foldl (fun gs a => addToGroups gs (domainFromArticle a) a) gs).map
        Prod.snd).flatten).Perm ((gs.map Prod.snd).flatten ++ arts) := by
  induction arts with
  | nil => intro gs; simp
  | cons a arts ih =>
    intro gs
    simp only [List.foldl_cons]
    refine (ih (addToGroups gs (domainFromArticle a) a)).trans ?_
    refine (List.Perm.append_right arts
      (addToGroups_flatten_perm gs (domainFromArticle a) a)).trans ?_
    have hm : ((gs.map Prod.snd).flatten ++ a :: arts).Perm
        (a :: ((gs.map Prod.snd).flatten ++ arts)) :=
      List.perm_middle
    exact hm.symm

theorem groupBySite_flatten_perm (arts : List Article) :
    (((groupBySite arts).map Prod.snd).flatten).Perm arts := by
  simpa [groupBySite] using foldl_addToGroups_flatten_perm arts []

theorem lookupGroup_addToGroups :
    ∀ (gs : List (List Char × List Article)) (k : List Char) (a : Article) (d : List Char),
      lookupGroup (addToGroups gs k a) d
        = lookupGroup gs d ++ (if k = d then [a] else []) := by
  intro gs
  induction gs with
  | nil =>
    intro k a d
    simp only [addToGroups, lookupGroup]
    split <;> rfl
  | cons p rest ih =>
    intro k a d
    obtain ⟨k', l⟩ := p
    by_cases hk : k' = k
    · subst hk
      simp only [addToGroups, if_pos rfl, lookupGroup]
      by_cases hd : k' = d
      · simp [hd]
      · simp [hd]
    · simp only [addToGroups, if_neg hk, lookupGroup]
      by_cases hd : k' = d
      · have hkd : ¬(k = d) := fun h => hk (by rw [hd, h])
        simp [hd, hkd]
      · simp [hd, ih k a d]

theorem lookupGroup_foldl (d : List Char) :
    ∀ (arts : List Article) (gs : List (List Char × List Article)),
      lookupGroup (arts.foldl (fun gs a => addToGroups gs (domainFromArticle a) a) gs) d
        = lookupGroup gs d ++ arts.filter (fun a => decide (domainFromArticle a = d)) := by
  intro arts
  induction arts with
  | nil => intro gs; simp
  | cons a arts ih =>
    intro gs
    simp only [List.foldl_cons]
    rw [ih (addToGroups gs (domainFromArticle a) a), lookupGroup_addToGroups]
    by_cases hd : domainFromArticle a = d
    · simp [List.filter_cons, hd]
    · simp [List.filter_cons, hd]

theorem lookupGroup_groupBySite (arts : List Article) (d : List Char) :
    lookupGroup (groupBySite arts) d
      = arts.filter (fun a => decide (domainFromArticle a = d)) := by
  simpa [groupBySite] using lookupGroup_foldl d arts []

theorem addToGroups_homog :
    ∀ (gs : List (List Char × List Article)) (k : List Char) (a0 : Article),
      (∀ p ∈ gs, ∀ a ∈ p.2, domainFromArticle a = p.1) → domainFromArticle a0 = k →
      ∀ p ∈ addToGroups gs k a0, ∀ a ∈ p.2, domainFromArticle a = p.1 := by
  intro gs
  induction gs with
  | nil =>
    intro k a0 _ ha p hp a haa
    simp only [addToGroups, List.mem_singleton] at hp
    subst hp
    simp only [List.mem_singleton] at haa
    subst haa
    exact ha
  | cons q rest ih =>
    intro k a0 hg ha p hp a haa
    obtain ⟨k', l⟩ := q
    by_cases hk : k' = k
    · subst hk
      simp only [addToGroups, if_pos rfl] at hp
      cases hp with
      | head =>
        have haa2 : a ∈ l ++ [a0] := haa
        rcases List.mem_append.mp haa2 with h2 | h2
        · exact hg (k', l) (by simp) a h2
        · simp only [List.mem_singleton] at h2
          subst h2
          exact ha
      | tail _ hp =>
        exact hg p (List.mem_cons_of_mem _ hp) a haa
    · simp only [addToGroups, if_neg hk] at hp
      cases hp with
      | head => exact hg (k', l) (by simp) a haa
      | tail _ hp =>
        exact ih k a0 (fun q hq => hg q (List.mem_cons_of_mem _ hq)) ha p hp a haa

theorem addToGroups_keys (k : List Char) (a : Article) :
    ∀ gs : List (List Char × List Article),
      (addToGroups gs k a).map Prod.fst
        = if k ∈ gs.map Prod.fst then gs.map Prod.fst else gs.map Prod.fst ++ [k] := by
  intro gs
  induction gs with
  | nil => simp [addToGroups]
  | cons p rest ih =>
    obtain ⟨k', l⟩ := p
    by_cases hk : k' = k
    · subst hk
      simp [addToGroups]
    · simp only [addToGroups, if_neg hk, List.map_cons, ih]
      have hk2 : ¬(k = k') := fun h => hk h.symm
      by_cases hm : k ∈ rest.map Prod.fst
      · simp [hm, hk2]
      · simp [hm, hk2]

theorem addToGroups_keys_nodup (gs : List (List Char × List Article)) (k : List Char)
    (a : Article) (h : (gs.map Prod.fst).Nodup) :
    ((addToGroups gs k a).map Prod.fst).Nodup := by
  rw [addToGroups_keys]
  by_cases hm : k ∈ gs.map Prod.fst
  · simpa [hm] using h
  · simp only [if_neg hm]
    refine List.Nodup.append h (List.nodup_singleton k) ?_
    intro x hx hx'
    simp only [List.mem_singleton] at hx'
    subst hx'
    exact hm hx

theorem foldl_addToGroups_homog (arts : List Article) :
    ∀ gs, (∀ p ∈ gs, ∀ a ∈ p.2, domainFromArticle a = p.1) →
      ∀ p ∈ arts.foldl (fun gs a => addToGroups gs (domainFromArticle a) a) gs,
        ∀ a ∈ p.2, domainFromArticle a = p.1 := by
  induction arts with
  | nil => intro gs hg; simpa using hg
  | cons a arts ih =>
    intro gs hg
    simp only [List.foldl_cons]
    exact ih _ (addToGroups_homog gs (domainFromArticle a) a hg rfl)

theorem groupBySite_homog (arts : List Article) :
    ∀ p ∈ groupBySite arts, ∀ a ∈ p.2, domainFromArticle a = p.1 :=
  foldl_addToGroups_homog arts [] (by simp)

theorem foldl_addToGroups_keys_nodup (arts : List Article) :
    ∀ gs, (gs.map Prod.fst).Nodup →
      ((arts.foldl (fun gs a => addToGroups gs (domainFromArticle a) a) gs).map
        Prod.fst).Nodup := by
  induction arts with
  | nil => intro gs h; simpa using h
  | cons a arts ih =>
    intro gs h
    simp only [List.foldl_cons]
    exact ih _ (addToGroups_keys_nodup gs (domainFromArticle a) a h)

theorem groupBySite_keys_nodup (arts : List Article) :
    ((groupBySite arts).map Prod.fst).Nodup :=
  foldl_addToGroups_keys_nodup arts [] (by simp)

theorem tailGroups_map_snd (gs : List (List Char × List Article)) :
    (tailGroups gs).map Prod.snd = tailsOf (gs.map Prod.snd) := by
  induction gs with
  | nil => rfl
  | cons p rest ih => simpa [tailGroups, tailsOf] using ih

theorem tailGroups_keys (gs : List (List Char × List Article)) :
    (tailGroups gs).map Prod.fst = gs.map Prod.fst := by
  induction gs with
  | nil => rfl
  | cons p rest ih => simpa [tailGroups] using ih

theorem lookupGroup_tailGroups (d : List Char) :
    ∀ gs : List (List Char × List Article),
      lookupGroup (tailGroups gs) d = (lookupGroup gs d).tail := by
  intro gs
  induction gs with
  | nil => rfl
  | cons p rest ih =>
    obtain ⟨k, l⟩ := p
    show lookupGroup ((k, l.tail) :: tailGroups rest) d = (lookupGroup ((k, l) :: rest) d).tail
    by_cases hk : k = d
    · simp [lookupGroup, hk]
    · simp [lookupGroup, hk, ih]

theorem tailGroups_homog (gs : List (List Char × List Article))
    (hg : ∀ p ∈ gs, ∀ a ∈ p.2, domainFromArticle a = p.1) :
    ∀ p ∈ tailGroups gs, ∀ a ∈ p.2, domainFromArticle a = p.1 := by
  intro p hp a ha
  simp only [tailGroups, List.mem_map] at hp
  obtain ⟨q, hq, rfl⟩ := hp
  exact hg q hq a ((List.tail_sublist q.2).subset ha)

theorem lookupGroup_not_mem (d : List Char) :
    ∀ gs : List (List Char × List Article),
      d ∉ gs.map Prod.fst → lookupGroup gs d = [] := by
  intro gs
  induction gs with
  | nil => intro _; rfl
  | cons p rest ih =>
    intro h
    obtain ⟨k, l⟩ := p
    simp only [List.map_cons, List.mem_cons] at h
    push_neg at h
    simp [lookupGroup, Ne.symm h.1, ih h.2]

theorem filter_headList_eq (d k : List Char) (l : List Article)
    (hl : ∀ a ∈ l, domainFromArticle a = k) :
    (headList l).filter (fun a => decide (domainFromArticle a = d))
      = if k = d then headList l else [] := by
  cases l with
  | nil => simp [headList]
  | cons a t =>
    have ha : domainFromArticle a = k := hl a (by simp)
    by_cases hk : k = d
    · simp [headList, List.filter_cons, ha, hk]
    · simp [headList, List.filter_cons, ha, hk]

theorem filter_headsOf (d : List Char) :
    ∀ gs : List (List Char × List Article),
      (∀ p ∈ gs, ∀ a ∈ p.2, domainFromArticle a = p.1) →
      ((gs.map Prod.fst).Nodup) →
      (headsOf (gs.map Prod.snd)).filter (fun a => decide (domainFromArticle a = d))
        = headList (lookupGroup gs d) := by
  intro gs
  induction gs with
  | nil => intro _ _; rfl
  | cons p rest ih =>
    intro hg hnd
    obtain ⟨k, l⟩ := p
    simp only [List.map_cons] at hnd ⊢
    rw [headsOf_cons, List.filter_append]
    have hl : ∀ a ∈ l, domainFromArticle a = k := fun a ha => hg (k, l) (by simp) a ha
    have hrest : ∀ p ∈ rest, ∀ a ∈ p.2, domainFromArticle a = p.1 :=
      fun p hp => hg p (by simp [hp])
    have hnd' : (rest.map Prod.fst).Nodup := hnd.of_cons
    rw [filter_headList_eq d k l hl, ih hrest hnd']
    by_cases hk : k = d
    · subst hk
      have hknot : k ∉ rest.map Prod.fst := (List.nodup_cons.mp hnd).1
      simp [lookupGroup, lookupGroup_not_mem k rest hknot, headList]
    · simp [lookupGroup, hk]

theorem sumLen_zero_lookupGroup (d : List Char) :
    ∀ gs : List (List Char × List Article),
      sumLen (gs.map Prod.snd) = 0 → lookupGroup gs d = [] := by
  intro gs
  induction gs with
  | nil => intro _; rfl
  | cons p rest ih =>
    intro h
    obtain ⟨k, l⟩ := p
    simp only [List.map_cons, sumLen] at h
    have hl : l = [] := List.length_eq_zero.mp (by omega)
    have hr := ih (by omega)
    subst hl
    by_cases hk : k = d <;> simp [lookupGroup, hk, hr]

theorem roundRobinGo_filter (d : List Char) :
    ∀ (fuel : Nat) (gs : List (List Char × List Article)),
      sumLen (gs.map Prod.snd) ≤ fuel →
      (∀ p ∈ gs, ∀ a ∈ p.2, domainFromArticle a = p.1) →
      ((gs.map Prod.fst).Nodup) →
      (roundRobinGo fuel (gs.map Prod.snd)).filter
          (fun a => decide (domainFromArticle a = d))
        = lookupGroup gs d := by
  intro fuel
  induction fuel with
  | zero =>
    intro gs h _ _
    have h0 : sumLen (gs.map Prod.snd) = 0 := Nat.le_zero.mp h
    rw [sumLen_zero_lookupGroup d gs h0]
    rfl
  | succ fuel ih =>
    intro gs h hg hnd
    by_cases h0 : sumLen (gs.map Prod.snd) = 0
    · simp only [roundRobinGo, if_pos h0]
      rw [sumLen_zero_lookupGroup d gs h0]
      rfl
    · simp only [roundRobinGo, if_neg h0]
      rw [List.filter_append, filter_headsOf d gs hg hnd]
      have htg : tailsOf (gs.map Prod.snd) = (tailGroups gs).map Prod.snd :=
        (tailGroups_map_snd gs).symm
      rw [htg]
      have hle : sumLen ((tailGroups gs).map Prod.snd) ≤ fuel := by
        rw [← htg]
        have := sumLen_tailsOf_lt (gs.map Prod.snd) h0
        omega
      rw [ih (tailGroups gs) hle (tailGroups_homog gs hg)
        (by rw [tailGroups_keys]; exact hnd)]
      rw [lookupGroup_tailGroups d gs]
      exact headList_append_tail _

/-- Claim C10: `_interleave_articles_by_site` terminates and returns a
permutation of its input (every article exactly once); articles sharing a
domain keep their relative order (filtering the output to any one domain
yields exactly the input filtered to that domain, in order); and for a
non-empty input the output is precisely the round-robin interleaving of
the first-appearance-ordered domain groups, one head per non-empty group
per sweep. -/
theorem c10_interleave_round_robin (arts : List Article) :
    (interleaveArticlesBySite arts).Perm arts
    ∧ (∀ d : List Char,
        (interleaveArticlesBySite arts).filter (fun a => decide (domainFromArticle a = d))
          = arts.filter (fun a => decide (domainFromArticle a = d)))
    ∧ interleaveArticlesBySite arts = roundRobin ((groupBySite arts).map Prod.snd) := by
  cases arts with
  | nil => exact ⟨List.Perm.nil, fun d => rfl, rfl⟩
  | cons a0 rest =>
    have hil : interleaveArticlesBySite (a0 :: rest)
        = roundRobin ((groupBySite (a0 :: rest)).map Prod.snd) := by
      simp [interleaveArticlesBySite]
    refine ⟨?_, ?_, hil⟩
    · rw [hil]
      exact (roundRobinGo_perm _ _ le_rfl).trans (groupBySite_flatten_perm _)
    · intro d
      rw [hil]
      exact (roundRobinGo_filter d _ (groupBySite (a0 :: rest)) le_rfl
        (groupBySite_homog _) (groupBySite_keys_nodup _)).trans
        (lookupGroup_groupBySite _ d)

end Monitor
